import Mathlib

/-!
Verification of the Sudoku game-logic module (`src/modules/games/sudoku/sudoku_module.py`)
of the ZSY-Toolkit repository.

Boards are embedded as total functions `Nat → Nat → Nat`; only indices below 9 are
meaningful, value `0` marks an empty cell.  The Python module's randomness (the three
`random.shuffle` calls) is modelled by passing the shuffled lists as explicit parameters.
-/

set_option maxRecDepth 100000

namespace ZSY

/-- A Sudoku board: cell `(r, c)` holds a digit `1`-`9`, or `0` when empty. -/
abbrev Grid := Nat → Nat → Nat

/-- Writing value `v` into cell `(r, c)`: the effect of `board[row][col] = num`. -/
def setCell (g : Grid) (r c v : Nat) : Grid :=
  fun i j => if i = r ∧ j = c then v else g i j

/-- The 81 cell coordinates in row-major order, as produced by
`for r in range(9): for c in range(9):`. -/
def cellsList : List (Nat × Nat) :=
  (List.range 9).flatMap fun r => (List.range 9).map fun c => (r, c)

/-- `SudokuModule._find_empty`: first cell of the solution grid holding `0`,
scanning in row-major order. -/
def find_empty (g : Grid) : Option (Nat × Nat) :=
  cellsList.find? fun rc => g rc.1 rc.2 == 0

/-- `SudokuModule._is_valid`: the digit `num` clashes with no cell of the row, the
column, or the 3x3 box of `(row, col)`. -/
def is_valid (g : Grid) (row col num : Nat) : Bool :=
  ((List.range 9).all fun c => g row c != num) &&
  ((List.range 9).all fun r => g r col != num) &&
  ((List.range 3).all fun i => (List.range 3).all fun j =>
    g (3 * (row / 3) + i) (3 * (col / 3) + j) != num)

/-- The `for num in range(1, 10)` loop of `_solve_board`: try each candidate in turn,
recursing through `rec` on the extended grid; a failed branch keeps the original grid
(the Python code undoes its write on backtracking). -/
def tryNums (rec : Grid → Option Grid) (g : Grid) (row col : Nat) : List Nat → Option Grid
  | [] => none
  | n :: ns =>
    if is_valid g row col n then
      match rec (setCell g row col n) with
      | some g2 => some g2
      | none => tryNums rec g row col ns
    else tryNums rec g row col ns

/-- `SudokuModule._solve_board`: backtracking completion of the solution grid.  The
`fuel` argument bounds the recursion depth; the module's call sites use fuel `81`,
which exceeds the maximal possible depth (one level per empty cell, at most 81). -/
def solve : Nat → Grid → Option Grid
  | 0, _ => none
  | fuel + 1, g =>
    match find_empty g with
    | none => some g
    | some (row, col) => tryNums (solve fuel) g row col (List.range' 1 9)

/-- Net effect of `SudokuModule._fill_box`: the nine cells of the 3x3 box whose
top-left corner is `(row, col)` receive `nums[3*r + c]` in turn. -/
def fill_box (g : Grid) (row col : Nat) (nums : List Nat) : Grid :=
  fun i j =>
    if row ≤ i ∧ i < row + 3 ∧ col ≤ j ∧ j < col + 3 then
      nums.getD (3 * (i - row) + (j - col)) 0
    else g i j

/-- The all-empty board. -/
def zeroGrid : Grid := fun _ _ => 0

/-- The diagonal seeding phase of `_generate_solution`: the three main-diagonal 3x3
boxes are filled from the shuffled lists `p1`, `p2`, `p3`. -/
def seeded (p1 p2 p3 : List Nat) : Grid :=
  fill_box (fill_box (fill_box zeroGrid 0 0 p1) 3 3 p2) 6 6 p3

/-- `SudokuModule._generate_solution`: seed the diagonal boxes, then run the
backtracking solver.  The return value of `_solve_board` is ignored by the Python
code; on failure every tentative write has been undone, so the grid is left as
seeded. -/
def generate_solution (p1 p2 p3 : List Nat) : Grid :=
  match solve 81 (seeded p1 p2 p3) with
  | some g => g
  | none => seeded p1 p2 p3

/-- The `SudokuDifficulty` enumeration. -/
inductive SudokuDifficulty where
  | EASY
  | MEDIUM
  | HARD
deriving DecidableEq

/-- Player note sets, one set of candidate digits per cell (`self.notes`). -/
abbrev NoteGrid := Nat → Nat → Finset Nat

/-- Writing a note set into cell `(r, c)`. -/
def setNote (ns : NoteGrid) (r c : Nat) (v : Finset Nat) : NoteGrid :=
  fun i j => if i = r ∧ j = c then v else ns i j

/-- The mutable fields of a `SudokuModule` instance. -/
structure State where
  board : Grid
  original_board : Grid
  solution : Grid
  difficulty : SudokuDifficulty
  game_started : Bool
  game_completed : Bool
  hints_used : Nat
  mistakes_made : Nat
  notes : NoteGrid

/-- The state built by `SudokuModule.__init__`. -/
def initState : State where
  board := zeroGrid
  original_board := zeroGrid
  solution := zeroGrid
  difficulty := .EASY
  game_started := false
  game_completed := false
  hints_used := 0
  mistakes_made := 0
  notes := fun _ _ => ∅

/-- The `cells_to_remove` table of `_generate_puzzle`. -/
def cells_to_remove : SudokuDifficulty → Nat
  | .EASY => 40
  | .MEDIUM => 50
  | .HARD => 60

/-- The removal loop of `_generate_puzzle`: set each listed position to `0`. -/
def carve (g : Grid) (ps : List (Nat × Nat)) : Grid :=
  ps.foldl (fun h rc => setCell h rc.1 rc.2 0) g

/-- `SudokuModule._generate_puzzle`: generate a solution, copy it to the board, zero the
first `cells_to_remove` positions of the shuffled position list `ps`, and record the
result as the original board. -/
def generate_puzzle (s : State) (d : SudokuDifficulty) (p1 p2 p3 : List Nat)
    (ps : List (Nat × Nat)) : State :=
  let sol := generate_solution p1 p2 p3
  let b := carve sol (ps.take (cells_to_remove d))
  { s with solution := sol, board := b, original_board := b }

/-- `SudokuModule.new_game`: reset flags, counters and the note sets, then generate a
fresh puzzle.  `p1 p2 p3` are the shuffled digit lists of the three `_fill_box` calls
and `ps` the shuffled `all_positions` list. -/
def new_game (s : State) (d : SudokuDifficulty) (p1 p2 p3 : List Nat)
    (ps : List (Nat × Nat)) : Bool × State :=
  (true, generate_puzzle
    { s with difficulty := d, game_started := true, game_completed := false,
             hints_used := 0, mistakes_made := 0, notes := fun _ _ => ∅ }
    d p1 p2 p3 ps)

/-- `SudokuModule._check_completion`: no empty cell remains and every cell agrees with
the solution. -/
def check_completion (b sol : Grid) : Bool :=
  (cellsList.all fun rc => b rc.1 rc.2 != 0) &&
  (cellsList.all fun rc => b rc.1 rc.2 == sol rc.1 rc.2)

/-- `SudokuModule.place_number`: guards in source order (game not started, game
completed, coordinates, given cell, digit range), then write the digit, clear the
cell's notes when the digit is not `0`, and run the completion check. -/
def place_number (s : State) (row col num : Nat) : Bool × State :=
  if s.game_started = false then (false, s)
  else if s.game_completed = true then (false, s)
  else if ¬(row < 9 ∧ col < 9) then (false, s)
  else if s.original_board row col ≠ 0 then (false, s)
  else if ¬(num ≤ 9) then (false, s)
  else
    let b := setCell s.board row col num
    let ns := if num ≠ 0 then setNote s.notes row col ∅ else s.notes
    let comp := if check_completion b s.solution then true else s.game_completed
    (true, { s with board := b, notes := ns, game_completed := comp })

/-- `SudokuModule.toggle_note`: guards in source order, then flip membership of `num`
in the cell's note set. -/
def toggle_note (s : State) (row col num : Nat) : Bool × State :=
  if s.game_started = false then (false, s)
  else if s.game_completed = true then (false, s)
  else if ¬(row < 9 ∧ col < 9) then (false, s)
  else if s.original_board row col ≠ 0 then (false, s)
  else if s.board row col ≠ 0 then (false, s)
  else if ¬(1 ≤ num ∧ num ≤ 9) then (false, s)
  else
    let cur := s.notes row col
    let upd := if num ∈ cur then cur.erase num else insert num cur
    (true, { s with notes := setNote s.notes row col upd })

/-- The cell predicate of the `get_hint` scan: empty, or disagreeing with the
solution. -/
def hintable (s : State) (rc : Nat × Nat) : Bool :=
  s.board rc.1 rc.2 == 0 || s.board rc.1 rc.2 != s.solution rc.1 rc.2

/-- `SudokuModule.get_hint`: scan the board in row-major order for the first empty or
wrong cell; on a find, bump `hints_used` and return `(row, col, solution value)`.  The
board itself is not modified. -/
def get_hint (s : State) : Option (Nat × Nat × Nat) × State :=
  if s.game_started = false then (none, s)
  else if s.game_completed = true then (none, s)
  else
    match cellsList.find? (hintable s) with
    | some (r, c) => (some (r, c, s.solution r c), { s with hints_used := s.hints_used + 1 })
    | none => (none, s)

/-- The error list built by `check_board`: the non-empty cells that disagree with the
solution, in row-major order. -/
def errList (s : State) : List (Nat × Nat) :=
  cellsList.filter fun rc => s.board rc.1 rc.2 != 0 && s.board rc.1 rc.2 != s.solution rc.1 rc.2

/-- `SudokuModule.check_board`: report the mismatched cells and count one mistake per
reported cell. -/
def check_board (s : State) : List (Nat × Nat) × State :=
  (errList s, { s with mistakes_made := s.mistakes_made + (errList s).length })

/-- Digits present in row `row` of the board. -/
def rowVals (g : Grid) (row : Nat) : Finset Nat :=
  (Finset.range 9).image fun c => g row c

/-- Digits present in column `col` of the board. -/
def colVals (g : Grid) (col : Nat) : Finset Nat :=
  (Finset.range 9).image fun r => g r col

/-- Digits present in the 3x3 box of `(row, col)`. -/
def boxVals (g : Grid) (row col : Nat) : Finset Nat :=
  (Finset.range 9).image fun k => g (3 * (row / 3) + k / 3) (3 * (col / 3) + k % 3)

/-- Net effect of `_get_possible_numbers`: start from `{1..9}` and discard every digit
seen in the cell's row, column or box (the code's guard against discarding `0` is a
no-op here, since `0 ∉ {1..9}`). -/
def get_possible_numbers (s : State) (row col : Nat) : Finset Nat :=
  Finset.Icc 1 9 \ (rowVals s.board row ∪ colVals s.board col ∪ boxVals s.board row col)

/-- `SudokuModule.auto_notes`: clear all note sets, then store the possible digits at
every empty cell. -/
def auto_notes (s : State) : Bool × State :=
  if s.game_started = false then (false, s)
  else if s.game_completed = true then (false, s)
  else
    (true, { s with notes := fun r c =>
      if r < 9 ∧ c < 9 ∧ s.board r c = 0 then get_possible_numbers s r c else ∅ })

/-- `SudokuModule.reset_game`: restore the board from the original grid, clear the
completion flag, counters and notes. -/
def reset_game (s : State) : Bool × State :=
  if s.game_started = false then (false, s)
  else
    (true, { s with board := s.original_board, game_completed := false,
                    hints_used := 0, mistakes_made := 0, notes := fun _ _ => ∅ })

/-- One application of a public operation of the module.  The `new_game` case records
the distribution of the random inputs: each `p` is a shuffle of `[1..9]` and `ps` a
shuffle of all 81 positions. -/
inductive Step : State → State → Prop where
  | new_game (s : State) (d : SudokuDifficulty) (p1 p2 p3 : List Nat)
      (ps : List (Nat × Nat))
      (h1 : p1.Perm (List.range' 1 9)) (h2 : p2.Perm (List.range' 1 9))
      (h3 : p3.Perm (List.range' 1 9)) (hps : ps.Perm cellsList) :
      Step s (new_game s d p1 p2 p3 ps).2
  | place_number (s : State) (row col num : Nat) : Step s (place_number s row col num).2
  | toggle_note (s : State) (row col num : Nat) : Step s (toggle_note s row col num).2
  | auto_notes (s : State) : Step s (auto_notes s).2
  | get_hint (s : State) : Step s (get_hint s).2
  | check_board (s : State) : Step s (check_board s).2
  | reset_game (s : State) : Step s (reset_game s).2

/-- States reachable from a freshly constructed module through public operations. -/
inductive Reachable : State → Prop where
  | init : Reachable initState
  | step {s s' : State} : Reachable s → Step s s' → Reachable s'

/-! ### Concrete states used to instantiate the theorems -/

/-- The cyclic shift pattern, a full valid Sudoku solution. -/
def solEx : Grid := fun r c => if r < 9 ∧ c < 9 then (3 * (r % 3) + r / 3 + c) % 9 + 1 else 0

/-- The solution with the two cells `(0,0)` and `(0,1)` removed, used as givens grid. -/
def origEx : Grid := fun r c => if (r = 0 ∧ c = 0) ∨ (r = 0 ∧ c = 1) then 0 else solEx r c

/-- A play grid: cell `(0,0)` still empty, cell `(0,1)` filled with a wrong digit. -/
def boardEx : Grid := fun r c =>
  if r = 0 ∧ c = 0 then 0 else if r = 0 ∧ c = 1 then 5 else solEx r c

/-- A mid-game state: started, not completed, one empty cell and one mistake. -/
def sEx : State where
  board := boardEx
  original_board := origEx
  solution := solEx
  difficulty := .EASY
  game_started := true
  game_completed := false
  hints_used := 0
  mistakes_made := 0
  notes := fun _ _ => ∅

/-! ### C6: the completed flag tracks exactly board full and board equals solution -/

/-- The play grid has no empty cell and agrees with the solution everywhere. -/
@[reducible] def FullMatch (s : State) : Prop :=
  ∀ r, r < 9 → ∀ c, c < 9 → s.board r c ≠ 0 ∧ s.board r c = s.solution r c

/-- The completion flag is accurate. -/
@[reducible] def CompletedIff (s : State) : Prop :=
  s.game_completed = true ↔ FullMatch s

/-! ### C4: the carve step removes exactly the configured number of cells -/

/-- Number of empty cells of the 9x9 region. -/
def zeroCount (g : Grid) : Nat :=
  (cellsList.filter fun rc => g rc.1 rc.2 == 0).length

/-- The concrete shuffles used by the witnesses: the three diagonal boxes of the cyclic
shift pattern. -/
def cp1 : List Nat := [1, 2, 3, 4, 5, 6, 7, 8, 9]

/-- Second concrete shuffle. -/
def cp2 : List Nat := [5, 6, 7, 8, 9, 1, 2, 3, 4]

/-! ### C2: a successfully generated solution satisfies the Sudoku constraint -/

/-- The `i`-th cell (row-major inside the box) of the `b`-th box (boxes numbered
row-major). -/
def boxCell (b i : Nat) : Nat × Nat :=
  (3 * (b / 3) + i / 3, 3 * (b % 3) + i % 3)

/-- Every row contains every digit 1-9 exactly once. -/
@[reducible] def ExactlyOnceRows (g : Grid) : Prop :=
  ∀ r, r < 9 → ∀ d, 1 ≤ d → d ≤ 9 →
    ∃ c, c < 9 ∧ g r c = d ∧ ∀ c2, c2 < 9 → g r c2 = d → c2 = c

/-- Every column contains every digit 1-9 exactly once. -/
@[reducible] def ExactlyOnceCols (g : Grid) : Prop :=
  ∀ c, c < 9 → ∀ d, 1 ≤ d → d ≤ 9 →
    ∃ r, r < 9 ∧ g r c = d ∧ ∀ r2, r2 < 9 → g r2 c = d → r2 = r

/-- Every 3x3 box contains every digit 1-9 exactly once. -/
@[reducible] def ExactlyOnceBoxes (g : Grid) : Prop :=
  ∀ b, b < 9 → ∀ d, 1 ≤ d → d ≤ 9 →
    ∃ i, i < 9 ∧ g (boxCell b i).1 (boxCell b i).2 = d ∧
      ∀ i2, i2 < 9 → g (boxCell b i2).1 (boxCell b i2).2 = d → i2 = i

/-- The note set produced by one successful `toggle_note` call on a cell whose current
note set is `cur`. -/
def toggledSet (cur : Finset Nat) (num : Nat) : Finset Nat :=
  if num ∈ cur then cur.erase num else insert num cur

/-! ### C5: given cells are immutable -/

/-- Every given (non-zero original) cell agrees between the play grid and the original
grid. -/
@[reducible] def GivensMatch (s : State) : Prop :=
  ∀ r, r < 9 → ∀ c, c < 9 → s.original_board r c ≠ 0 → s.board r c = s.original_board r c

/-- The original grid has at least one empty cell. -/
@[reducible] def OrigHasZero (s : State) : Prop :=
  ∃ r c, r < 9 ∧ c < 9 ∧ s.original_board r c = 0

/-! ### The solver fills the grid completely whenever it succeeds -/

/-- No cell of the 9x9 region is empty. -/
@[reducible] def FullGrid (g : Grid) : Prop :=
  ∀ r, r < 9 → ∀ c, c < 9 → g r c ≠ 0

/-- Number of non-empty cells of the 9x9 region. -/
def filledCount (g : Grid) : Nat :=
  (cellsList.filter fun rc => g rc.1 rc.2 != 0).length

/-- Third concrete shuffle. -/
def cp3 : List Nat := [9, 1, 2, 3, 4, 5, 6, 7, 8]

/-! ### C2: partial-board consistency is preserved by the solver -/

/-- Partial-board consistency: every value is at most `9` and no nonzero digit repeats
inside a row, a column or a 3x3 box. -/
@[reducible] def Consistent (g : Grid) : Prop :=
  (∀ r, r < 9 → ∀ c, c < 9 → g r c ≤ 9) ∧
  (∀ r, r < 9 → ∀ c1, c1 < 9 → ∀ c2, c2 < 9 → c1 ≠ c2 → g r c1 ≠ 0 → g r c1 ≠ g r c2) ∧
  (∀ c, c < 9 → ∀ r1, r1 < 9 → ∀ r2, r2 < 9 → r1 ≠ r2 → g r1 c ≠ 0 → g r1 c ≠ g r2 c) ∧
  (∀ r1, r1 < 9 → ∀ c1, c1 < 9 → ∀ r2, r2 < 9 → ∀ c2, c2 < 9 →
    r1 / 3 = r2 / 3 → c1 / 3 = c2 / 3 → ¬(r1 = r2 ∧ c1 = c2) → g r1 c1 ≠ 0 →
    g r1 c1 ≠ g r2 c2)

/-- The full Sudoku constraint. -/
@[reducible] def ValidSolution (g : Grid) : Prop :=
  ExactlyOnceRows g ∧ ExactlyOnceCols g ∧ ExactlyOnceBoxes g

/-! ## Theorems -/

/-! ### Basic facts about the cell list and grid updates -/

lemma mem_cellsList {rc : Nat × Nat} : rc ∈ cellsList ↔ rc.1 < 9 ∧ rc.2 < 9 := by
  obtain ⟨r, c⟩ := rc
  simp only [cellsList, List.mem_flatMap, List.mem_map, List.mem_range, Prod.mk.injEq]
  constructor
  · rintro ⟨a, ha, b, hb, rfl, rfl⟩
    exact ⟨ha, hb⟩
  · rintro ⟨hr, hc⟩
    exact ⟨r, hr, c, hc, rfl, rfl⟩

lemma cellsList_nodup : cellsList.Nodup := by decide

lemma cellsList_length : cellsList.length = 81 := by decide

lemma setCell_self (g : Grid) (r c v : Nat) : setCell g r c v r c = v := by
  simp [setCell]

lemma setCell_ne (g : Grid) {r c i j : Nat} (v : Nat) (h : ¬(i = r ∧ j = c)) :
    setCell g r c v i j = g i j := by
  simp [setCell, h]

lemma carve_apply (ps : List (Nat × Nat)) (g : Grid) (i j : Nat) :
    carve g ps i j = if (i, j) ∈ ps then 0 else g i j := by
  induction ps generalizing g with
  | nil => simp [carve]
  | cons rc ps ih =>
    show carve (setCell g rc.1 rc.2 0) ps i j = _
    rw [ih]
    by_cases hm : (i, j) ∈ ps
    · simp [hm]
    · by_cases he : (i, j) = rc
      · subst he
        simp [hm, setCell]
      · have : ¬(i = rc.1 ∧ j = rc.2) := by
          intro ⟨h1, h2⟩
          exact he (Prod.ext h1 h2)
        simp [hm, he, setCell_ne g 0 this]

lemma check_completion_iff (b sol : Grid) :
    check_completion b sol = true ↔
      (∀ r, r < 9 → ∀ c, c < 9 → b r c ≠ 0 ∧ b r c = sol r c) := by
  rw [check_completion, Bool.and_eq_true, List.all_eq_true, List.all_eq_true]
  constructor
  · rintro ⟨hne, heq⟩ r hr c hc
    have h1 := hne (r, c) (mem_cellsList.mpr ⟨hr, hc⟩)
    have h2 := heq (r, c) (mem_cellsList.mpr ⟨hr, hc⟩)
    simp only [bne_iff_ne, ne_eq, beq_iff_eq] at h1 h2
    exact ⟨h1, h2⟩
  · intro h
    refine ⟨fun rc hrc => ?_, fun rc hrc => ?_⟩
    · have := h rc.1 (mem_cellsList.mp hrc).1 rc.2 (mem_cellsList.mp hrc).2
      simpa using this.1
    · have := h rc.1 (mem_cellsList.mp hrc).1 rc.2 (mem_cellsList.mp hrc).2
      simpa using this.2

/-! ### C7: check_board reports exactly the mismatched cells and re-counts mistakes -/

lemma mem_errList {s : State} {r c : Nat} :
    (r, c) ∈ errList s ↔
      r < 9 ∧ c < 9 ∧ s.board r c ≠ 0 ∧ s.board r c ≠ s.solution r c := by
  simp only [errList, List.mem_filter, mem_cellsList, Bool.and_eq_true, bne_iff_ne, ne_eq]
  tauto

/-- C7: `check_board` returns exactly the coordinates of the non-empty play-grid cells
that differ from the solution, and adds one mistake per reported cell; a second call on
the unchanged board returns the same list and brings the total increment to twice its
length. -/
theorem check_board_C7 (s : State) :
    (check_board s).1 = errList s ∧
    (∀ r c : Nat, (r, c) ∈ errList s ↔
      (r < 9 ∧ c < 9 ∧ s.board r c ≠ 0 ∧ s.board r c ≠ s.solution r c)) ∧
    (check_board s).2.board = s.board ∧
    (check_board s).2.solution = s.solution ∧
    (check_board s).2.mistakes_made = s.mistakes_made + (errList s).length ∧
    (check_board (check_board s).2).1 = errList s ∧
    (check_board (check_board s).2).2.mistakes_made =
      s.mistakes_made + 2 * (errList s).length := by
  refine ⟨rfl, fun r c => mem_errList, rfl, rfl, rfl, rfl, ?_⟩
  show s.mistakes_made + (errList s).length + (errList s).length = _
  omega

/-- Witness for C7 at a concrete state. -/
theorem check_board_C7_witness :
    (check_board initState).1 = errList initState ∧
    ((0, 0) ∈ errList initState ↔
      (0 < 9 ∧ 0 < 9 ∧ initState.board 0 0 ≠ 0 ∧
        initState.board 0 0 ≠ initState.solution 0 0)) ∧
    (check_board (check_board initState).2).2.mistakes_made =
      initState.mistakes_made + 2 * (errList initState).length :=
  ⟨(check_board_C7 initState).1, (check_board_C7 initState).2.1 0 0,
    (check_board_C7 initState).2.2.2.2.2.2⟩

/-! ### C8: precondition violations leave the state unchanged -/

/-- C8: whenever a precondition of a mutating operation is violated, the operation
returns `false` and returns the state unchanged — the whole state, including grids,
notes, counters and flags. -/
theorem atomic_C8 (s : State) (row col num : Nat) :
    ((s.game_started = false ∨ s.game_completed = true ∨ 9 ≤ row ∨ 9 ≤ col ∨
        s.original_board row col ≠ 0 ∨ 9 < num) →
      place_number s row col num = (false, s)) ∧
    ((s.game_started = false ∨ s.game_completed = true ∨ 9 ≤ row ∨ 9 ≤ col ∨
        s.original_board row col ≠ 0 ∨ s.board row col ≠ 0 ∨ num = 0 ∨ 9 < num) →
      toggle_note s row col num = (false, s)) ∧
    ((s.game_started = false ∨ s.game_completed = true) → auto_notes s = (false, s)) ∧
    (s.game_started = false → reset_game s = (false, s)) := by
  refine ⟨fun h => ?_, fun h => ?_, fun h => ?_, fun h => ?_⟩
  · rw [place_number]
    split_ifs with g1 g2 g3 g4 g5 <;> try rfl
    all_goals (rcases h with h | h | h | h | h | h <;>
      first
      | exact absurd h g1
      | exact absurd h g2
      | exact absurd h g4
      | omega)
  · rw [toggle_note]
    split_ifs with g1 g2 g3 g4 g5 g6 <;> try rfl
    all_goals (rcases h with h | h | h | h | h | h | h | h <;>
      first
      | exact absurd h g1
      | exact absurd h g2
      | exact absurd h g4
      | exact absurd h g5
      | omega)
  · rw [auto_notes]
    split_ifs with g1 g2 <;> try rfl
    all_goals (rcases h with h | h <;>
      first
      | exact absurd h g1
      | exact absurd h g2)
  · simp [reset_game, h]

/-- Witness for C8: on a freshly constructed (not yet started) module every mutating
operation rejects and returns the state unchanged. -/
theorem atomic_C8_witness :
    place_number initState 0 0 1 = (false, initState) ∧
    toggle_note initState 0 0 1 = (false, initState) ∧
    auto_notes initState = (false, initState) ∧
    reset_game initState = (false, initState) :=
  ⟨(atomic_C8 initState 0 0 1).1 (Or.inl rfl),
   (atomic_C8 initState 0 0 1).2.1 (Or.inl rfl),
   (atomic_C8 initState 0 0 1).2.2.1 (Or.inl rfl),
   (atomic_C8 initState 0 0 1).2.2.2 rfl⟩

/-! ### C9: toggling a note twice restores the membership of the digit -/

lemma setNote_self (ns : NoteGrid) (r c : Nat) (v : Finset Nat) : setNote ns r c v r c = v := by
  simp [setNote]

lemma toggledSet_twice_mem (cur : Finset Nat) (num : Nat) :
    num ∈ toggledSet (toggledSet cur num) num ↔ num ∈ cur := by
  by_cases hn : num ∈ cur <;> simp [toggledSet, hn]

lemma toggle_note_eq (s : State) (row col num : Nat)
    (hst : s.game_started = true) (hcp : s.game_completed = false)
    (hr : row < 9) (hc : col < 9)
    (ho : s.original_board row col = 0) (hb : s.board row col = 0)
    (h1 : 1 ≤ num) (h9 : num ≤ 9) :
    toggle_note s row col num =
      (true, { s with notes := setNote s.notes row col (toggledSet (s.notes row col) num) }) := by
  rw [toggle_note, toggledSet]
  simp [hst, hcp, hr, hc, ho, hb, h1, h9]

/-- C9: on an eligible empty cell, both toggles succeed and the second one restores the
membership of the digit in the cell's note set. -/
theorem toggle_note_C9 (s : State) (row col num : Nat)
    (hst : s.game_started = true) (hcp : s.game_completed = false)
    (hr : row < 9) (hc : col < 9)
    (ho : s.original_board row col = 0) (hb : s.board row col = 0)
    (h1 : 1 ≤ num) (h9 : num ≤ 9) :
    (toggle_note s row col num).1 = true ∧
    (toggle_note (toggle_note s row col num).2 row col num).1 = true ∧
    (num ∈ (toggle_note (toggle_note s row col num).2 row col num).2.notes row col ↔
      num ∈ s.notes row col) := by
  have hrw := toggle_note_eq s row col num hst hcp hr hc ho hb h1 h9
  have hrw2 := toggle_note_eq
    { s with notes := setNote s.notes row col (toggledSet (s.notes row col) num) }
    row col num hst hcp hr hc ho hb h1 h9
  refine ⟨by rw [hrw], ?_, ?_⟩
  · simp only [hrw, hrw2]
  · simp only [hrw, hrw2, setNote_self]
    exact toggledSet_twice_mem _ _

/-- Witness for C9 at the concrete mid-game state. -/
theorem toggle_note_C9_witness :
    (toggle_note sEx 0 0 5).1 = true ∧
    (toggle_note (toggle_note sEx 0 0 5).2 0 0 5).1 = true ∧
    (5 ∈ (toggle_note (toggle_note sEx 0 0 5).2 0 0 5).2.notes 0 0 ↔ 5 ∈ sEx.notes 0 0) :=
  toggle_note_C9 sEx 0 0 5 rfl rfl (by omega) (by omega) (by decide) (by decide)
    (by omega) (by omega)

/-! ### C10: get_hint changes nothing but the hint counter -/

lemma get_hint_eq_of_find (s : State) (hst : s.game_started = true)
    (hcp : s.game_completed = false) {r c : Nat}
    (hf : cellsList.find? (hintable s) = some (r, c)) :
    get_hint s = (some (r, c, s.solution r c),
      { s with hints_used := s.hints_used + 1 }) := by
  rw [get_hint, hst, hcp]
  simp [hf]

/-- C10: when `get_hint` returns a triple, the only state change is `hints_used`
growing by one; a second call returns the same triple and the counter grows to two,
the board never changing. -/
theorem get_hint_C10 (s : State) (t : Nat × Nat × Nat) (h : (get_hint s).1 = some t) :
    (get_hint s).2.board = s.board ∧
    (get_hint s).2.original_board = s.original_board ∧
    (get_hint s).2.notes = s.notes ∧
    (get_hint s).2.game_completed = s.game_completed ∧
    (get_hint s).2 = { s with hints_used := s.hints_used + 1 } ∧
    (get_hint (get_hint s).2).1 = some t ∧
    (get_hint (get_hint s).2).2 = { s with hints_used := s.hints_used + 2 } := by
  by_cases hs : s.game_started = false
  · rw [get_hint] at h
    simp [hs] at h
  by_cases hc : s.game_completed = true
  · rw [get_hint] at h
    simp [hs, hc] at h
  have hst : s.game_started = true := by
    revert hs
    cases s.game_started <;> simp
  have hcp : s.game_completed = false := by
    revert hc
    cases s.game_completed <;> simp
  cases hf : cellsList.find? (hintable s) with
  | none =>
    rw [get_hint] at h
    simp [hs, hc, hf] at h
  | some rc =>
    obtain ⟨r, c⟩ := rc
    have hrw := get_hint_eq_of_find s hst hcp hf
    rw [hrw] at h
    have hrw2 := get_hint_eq_of_find { s with hints_used := s.hints_used + 1 }
      hst hcp hf
    refine ⟨by rw [hrw], by rw [hrw], by rw [hrw], by rw [hrw], by rw [hrw], ?_, ?_⟩
    · rw [hrw]
      show (get_hint { s with hints_used := s.hints_used + 1 }).1 = some t
      rw [hrw2]
      exact h
    · rw [hrw]
      show (get_hint { s with hints_used := s.hints_used + 1 }).2 =
        { s with hints_used := s.hints_used + 2 }
      rw [hrw2]

/-- Witness for C10 at the concrete mid-game state. -/
theorem get_hint_C10_witness :
    (get_hint sEx).1 = some (0, 0, 1) ∧
    (get_hint (get_hint sEx).2).1 = some (0, 0, 1) ∧
    (get_hint (get_hint sEx).2).2 = { sEx with hints_used := sEx.hints_used + 2 } :=
  ⟨by decide, (get_hint_C10 sEx (0, 0, 1) (by decide)).2.2.2.2.2.1,
    (get_hint_C10 sEx (0, 0, 1) (by decide)).2.2.2.2.2.2⟩

lemma step_givens {s s' : State} (hg : GivensMatch s) (hstep : Step s s') :
    GivensMatch s' := by
  cases hstep with
  | new_game d p1 p2 p3 ps h1 h2 h3 hps =>
    exact fun r hr c hc _ => rfl
  | place_number row col num =>
    rw [place_number]
    split_ifs with g1 g2 g3 g4 g5 <;>
      first
      | exact hg
      | (intro r hr c hc hne
         have hdiff : ¬(r = row ∧ c = col) := by
           rintro ⟨rfl, rfl⟩
           exact g4 hne
         show setCell s.board row col num r c = s.original_board r c
         rw [setCell_ne _ _ hdiff]
         exact hg r hr c hc hne)
  | toggle_note row col num =>
    rw [toggle_note]
    split_ifs <;> exact hg
  | auto_notes =>
    rw [auto_notes]
    split_ifs <;> exact hg
  | get_hint =>
    rw [get_hint]
    split_ifs
    · exact hg
    · exact hg
    · cases hf : cellsList.find? (hintable s) with
      | none => exact hg
      | some rc =>
        obtain ⟨r, c⟩ := rc
        exact hg
  | check_board =>
    exact hg
  | reset_game =>
    rw [reset_game]
    split_ifs
    · exact hg
    · exact fun r hr c hc _ => rfl

/-- C5: placing any digit on a given cell is rejected with the state unchanged, the
play grid agrees with the original grid on that cell, and agreement on all given cells
is preserved by every public operation. -/
theorem givens_C5 (s s' : State) (row col num : Nat)
    (hr : row < 9) (hc : col < 9) (hgiven : s.original_board row col ≠ 0)
    (hmatch : GivensMatch s) (hstep : Step s s') :
    place_number s row col num = (false, s) ∧
    s.board row col = s.original_board row col ∧
    GivensMatch s' := by
  refine ⟨?_, hmatch row hr col hc hgiven, step_givens hmatch hstep⟩
  rw [place_number]
  split_ifs <;> rfl

/-- Witness for C5: the cell `(0, 2)` of the concrete mid-game state is a given. -/
theorem givens_C5_witness :
    place_number sEx 0 2 7 = (false, sEx) ∧
    sEx.board 0 2 = sEx.original_board 0 2 ∧
    GivensMatch (place_number sEx 0 2 7).2 :=
  givens_C5 sEx (place_number sEx 0 2 7).2 0 2 7 (by omega) (by omega) (by decide)
    (by decide) (Step.place_number sEx 0 2 7)

lemma inv_init : CompletedIff initState ∧ OrigHasZero initState := by
  constructor
  · constructor
    · intro h
      exact Bool.noConfusion h
    · intro h
      exact absurd rfl (h 0 (by omega) 0 (by omega)).1
  · exact ⟨0, 0, by omega, by omega, rfl⟩

lemma step_inv {s s' : State} (h : CompletedIff s ∧ OrigHasZero s) (hstep : Step s s') :
    CompletedIff s' ∧ OrigHasZero s' := by
  obtain ⟨hci, hz⟩ := h
  cases hstep with
  | new_game d p1 p2 p3 ps h1 h2 h3 hps =>
    have hlen : ps.length = 81 := hps.length_eq.trans cellsList_length
    have hk : 1 ≤ cells_to_remove d := by cases d <;> simp [cells_to_remove]
    have htake : (ps.take (cells_to_remove d)).length ≠ 0 := by
      rw [List.length_take]
      omega
    obtain ⟨rc0, hmem0⟩ := List.exists_mem_of_ne_nil (ps.take (cells_to_remove d))
      (fun hnil => htake (by rw [hnil]; rfl))
    obtain ⟨r0, c0⟩ := rc0
    have hmem0' : (r0, c0) ∈ ps := List.mem_of_mem_take hmem0
    have hrange := mem_cellsList.mp (hps.mem_iff.mp hmem0')
    have hzero : carve (generate_solution p1 p2 p3)
        (ps.take (cells_to_remove d)) r0 c0 = 0 := by
      rw [carve_apply]
      simp [hmem0]
    refine ⟨⟨fun hcomp => Bool.noConfusion hcomp, fun hnm => ?_⟩,
      ⟨r0, c0, hrange.1, hrange.2, hzero⟩⟩
    exact absurd hzero (hnm r0 hrange.1 c0 hrange.2).1
  | place_number row col num =>
    rw [place_number]
    split_ifs with g1 g2 g3 g4 g5 g6 <;> try exact ⟨hci, hz⟩
    all_goals refine ⟨?_, hz⟩
    all_goals by_cases hcc : check_completion (setCell s.board row col num) s.solution = true
    all_goals simp only [CompletedIff, FullMatch, hcc, if_true, if_false]
    all_goals
      first
      | exact ⟨fun _ => (check_completion_iff _ _).mp hcc, fun _ => trivial⟩
      | exact ⟨fun hcomp => absurd hcomp g2,
          fun hnm => absurd ((check_completion_iff _ _).mpr hnm) hcc⟩
  | toggle_note row col num =>
    rw [toggle_note]
    split_ifs <;> exact ⟨hci, hz⟩
  | auto_notes =>
    rw [auto_notes]
    split_ifs <;> exact ⟨hci, hz⟩
  | get_hint =>
    rw [get_hint]
    split_ifs
    · exact ⟨hci, hz⟩
    · exact ⟨hci, hz⟩
    · cases hf : cellsList.find? (hintable s) with
      | none => exact ⟨hci, hz⟩
      | some rc =>
        obtain ⟨r, c⟩ := rc
        exact ⟨hci, hz⟩
  | check_board =>
    exact ⟨hci, hz⟩
  | reset_game =>
    rw [reset_game]
    split_ifs
    · exact ⟨hci, hz⟩
    · obtain ⟨r0, c0, hr0, hc0, h0⟩ := hz
      refine ⟨⟨fun hcomp => Bool.noConfusion hcomp, fun hnm => ?_⟩,
        ⟨r0, c0, hr0, hc0, h0⟩⟩
      exact absurd h0 (hnm r0 hr0 c0 hc0).1

lemma reachable_inv {s : State} (h : Reachable s) : CompletedIff s ∧ OrigHasZero s := by
  induction h with
  | init => exact inv_init
  | step _ hstep ih => exact step_inv ih hstep

/-- C6: in every reachable state, the completed flag holds exactly when the play grid
is full and agrees with the solution cell-for-cell. -/
theorem completed_C6 (s : State) (h : Reachable s) :
    s.game_completed = true ↔
      (∀ r, r < 9 → ∀ c, c < 9 → s.board r c ≠ 0 ∧ s.board r c = s.solution r c) :=
  (reachable_inv h).1

/-- Witness for C6 at the initial state. -/
theorem completed_C6_witness :
    initState.game_completed = true ↔
      (∀ r, r < 9 → ∀ c, c < 9 →
        initState.board r c ≠ 0 ∧ initState.board r c = initState.solution r c) :=
  completed_C6 initState Reachable.init

/-! ### C1: what get_hint actually does (it does not place the digit) -/

lemma cellsList_getElem : ∀ i, i < 81 → cellsList[i]? = some (i / 9, i % 9) := by decide

/-- C1 counterexample: on a started, not completed game whose cell `(0,0)` is empty,
`get_hint` returns the triple `(0, 0, 1)` and increments `hints_used`, but the play
grid is NOT modified: cell `(0,0)` still holds `0` afterwards, not the solution value
`1`.  The claim's "places the solution's value into that cell via the same mutation
path as place_number" is false of the code. -/
theorem get_hint_C1_counterexample :
    sEx.game_started = true ∧ sEx.game_completed = false ∧
    sEx.board 0 0 = 0 ∧ sEx.solution 0 0 = 1 ∧
    (get_hint sEx).1 = some (0, 0, 1) ∧
    (get_hint sEx).2.board 0 0 = 0 ∧
    (get_hint sEx).2.hints_used = 1 ∧
    place_number sEx 0 0 1 ≠ (true, (get_hint sEx).2) := by
  refine ⟨rfl, rfl, by decide, by decide, by decide, by decide, by decide, ?_⟩
  intro h
  have hb := congrArg (fun p => p.2.board 0 0) h
  simp only at hb
  revert hb
  decide

/-- C1 (amended): on a started, not completed game, `get_hint` scans the play grid in
row-major order for the first cell that is empty or disagrees with the solution; if one
exists it increments `hints_used` and returns the `(row, col, solution value)` triple
WITHOUT writing anything to the play grid (the caller is expected to place it); if no
such cell exists it returns nothing and leaves the state untouched. -/
theorem get_hint_C1 (s : State) (hst : s.game_started = true)
    (hcp : s.game_completed = false) :
    (∀ r c v, (get_hint s).1 = some (r, c, v) →
      r < 9 ∧ c < 9 ∧
      (s.board r c = 0 ∨ s.board r c ≠ s.solution r c) ∧
      v = s.solution r c ∧
      (∀ r' c', r' < 9 → c' < 9 → 9 * r' + c' < 9 * r + c →
        s.board r' c' ≠ 0 ∧ s.board r' c' = s.solution r' c') ∧
      (get_hint s).2 = { s with hints_used := s.hints_used + 1 }) ∧
    ((get_hint s).1 = none →
      (∀ r, r < 9 → ∀ c, c < 9 → s.board r c ≠ 0 ∧ s.board r c = s.solution r c) ∧
      (get_hint s).2 = s) := by
  constructor
  · intro r c v h
    cases hf : cellsList.find? (hintable s) with
    | none =>
      have hrw : get_hint s = (none, s) := by
        rw [get_hint, hst, hcp]
        simp [hf]
      rw [hrw] at h
      exact absurd h (by simp)
    | some rc =>
      obtain ⟨a, b⟩ := rc
      have hrw := get_hint_eq_of_find s hst hcp hf
      rw [hrw] at h
      have h2 : (a, b, s.solution a b) = (r, c, v) := Option.some.inj h
      simp only [Prod.mk.injEq] at h2
      obtain ⟨rfl, rfl, hv⟩ := h2
      have hmem := mem_cellsList.mp (List.mem_of_find?_eq_some hf)
      obtain ⟨hpa, pre, post, hsplit, hpre⟩ := List.find?_eq_some.mp hf
      simp only [hintable, Bool.or_eq_true, beq_iff_eq, bne_iff_ne, ne_eq] at hpa
      have hlen : cellsList.length = pre.length + (post.length + 1) := by
        rw [hsplit]
        simp only [List.length_append, List.length_cons]
      have hplen : pre.length < 81 := by
        rw [cellsList_length] at hlen
        omega
      have hga : cellsList[pre.length]? = some (a, b) := by
        rw [hsplit, List.getElem?_append_right (Nat.le_refl _)]
        simp
      have hab : a = pre.length / 9 ∧ b = pre.length % 9 := by
        rw [cellsList_getElem pre.length hplen] at hga
        have := Option.some.inj hga
        simp only [Prod.mk.injEq] at this
        exact ⟨this.1.symm, this.2.symm⟩
      have hidx : 9 * a + b = pre.length := by
        obtain ⟨ha', hb'⟩ := hab
        omega
      refine ⟨hmem.1, hmem.2, hpa, hv.symm, ?_, by rw [hrw]⟩
      intro r' c' hr' hc' hlt
      have hidx' : 9 * r' + c' < pre.length := by omega
      have hg' : cellsList[9 * r' + c']? = some (r', c') := by
        rw [cellsList_getElem (9 * r' + c') (by omega)]
        congr 1
        apply Prod.ext <;> omega
      have hgpre : pre[9 * r' + c']? = some (r', c') := by
        rw [hsplit, List.getElem?_append_left hidx'] at hg'
        exact hg'
      have hmem' : (r', c') ∈ pre := List.getElem?_mem hgpre
      have := hpre (r', c') hmem'
      simp only [hintable, Bool.not_eq_true', Bool.or_eq_false_iff, beq_eq_false_iff_ne,
        bne_eq_false_iff_eq, ne_eq] at this
      exact ⟨this.1, this.2⟩
  · intro h
    cases hf : cellsList.find? (hintable s) with
    | none =>
      have hrw : get_hint s = (none, s) := by
        rw [get_hint, hst, hcp]
        simp [hf]
      refine ⟨?_, by rw [hrw]⟩
      intro r hr c hc
      have := List.find?_eq_none.mp hf (r, c) (mem_cellsList.mpr ⟨hr, hc⟩)
      simp only [hintable, Bool.or_eq_true, beq_iff_eq, bne_iff_ne, ne_eq, not_or,
        not_not] at this
      exact ⟨this.1, this.2⟩
    | some rc =>
      obtain ⟨a, b⟩ := rc
      have hrw := get_hint_eq_of_find s hst hcp hf
      rw [hrw] at h
      exact absurd h (by simp)

/-- Witness for the amended C1 at the concrete mid-game state: the scan returns the
first empty cell `(0,0)` with its solution value. -/
theorem get_hint_C1_witness :
    0 < 9 ∧ 0 < 9 ∧
    (sEx.board 0 0 = 0 ∨ sEx.board 0 0 ≠ sEx.solution 0 0) ∧
    (1 : Nat) = sEx.solution 0 0 ∧
    (∀ r' c', r' < 9 → c' < 9 → 9 * r' + c' < 9 * 0 + 0 →
      sEx.board r' c' ≠ 0 ∧ sEx.board r' c' = sEx.solution r' c') ∧
    (get_hint sEx).2 = { sEx with hints_used := sEx.hints_used + 1 } :=
  (get_hint_C1 sEx rfl rfl).1 0 0 1 (by decide)

lemma find_empty_none_iff (g : Grid) : find_empty g = none ↔ FullGrid g := by
  rw [find_empty, List.find?_eq_none]
  constructor
  · intro h r hr c hc
    have := h (r, c) (mem_cellsList.mpr ⟨hr, hc⟩)
    simpa using this
  · intro h rc hrc
    have := h rc.1 (mem_cellsList.mp hrc).1 rc.2 (mem_cellsList.mp hrc).2
    simpa using this

lemma tryNums_some {rec : Grid → Option Grid} {g : Grid} {row col : Nat} :
    ∀ {ns : List Nat} {g2 : Grid}, tryNums rec g row col ns = some g2 →
      ∃ n, n ∈ ns ∧ is_valid g row col n = true ∧ rec (setCell g row col n) = some g2 := by
  intro ns
  induction ns with
  | nil =>
    intro g2 h
    exact absurd h (by simp [tryNums])
  | cons n ns ih =>
    intro g2 h
    rw [tryNums] at h
    by_cases hv : is_valid g row col n = true
    · rw [if_pos hv] at h
      cases hr : rec (setCell g row col n) with
      | some g3 =>
        rw [hr] at h
        have hg3 : g3 = g2 := Option.some.inj h
        exact ⟨n, List.mem_cons_self n ns, hv, by rw [hr, hg3]⟩
      | none =>
        rw [hr] at h
        obtain ⟨m, hm, hv2, hr2⟩ := ih h
        exact ⟨m, List.mem_cons_of_mem n hm, hv2, hr2⟩
    · rw [if_neg hv] at h
      obtain ⟨m, hm, hv2, hr2⟩ := ih h
      exact ⟨m, List.mem_cons_of_mem n hm, hv2, hr2⟩

lemma solve_some_full : ∀ (fuel : Nat) (g0 g : Grid), solve fuel g0 = some g → FullGrid g := by
  intro fuel
  induction fuel with
  | zero =>
    intro g0 g h
    exact absurd h (by simp [solve])
  | succ fuel ih =>
    intro g0 g h
    rw [solve] at h
    cases hf : find_empty g0 with
    | none =>
      rw [hf] at h
      have hg : g0 = g := Option.some.inj h
      rw [← hg]
      exact (find_empty_none_iff g0).mp hf
    | some rc =>
      obtain ⟨row, col⟩ := rc
      rw [hf] at h
      obtain ⟨n, _, _, hrec⟩ := tryNums_some h
      exact ih _ g hrec

lemma carve_zeroCount (g : Grid) (ps : List (Nat × Nat)) (hps : ps.Perm cellsList)
    (k : Nat) (hk : k ≤ 81) (hfull : FullGrid g) :
    zeroCount (carve g (ps.take k)) = k ∧ filledCount (carve g (ps.take k)) = 81 - k := by
  have hnd : ps.Nodup := hps.nodup_iff.mpr cellsList_nodup
  have hlen : ps.length = 81 := hps.length_eq.trans cellsList_length
  have hnd2 : (ps.take k ++ ps.drop k).Nodup := by
    rw [List.take_append_drop]
    exact hnd
  have hdisj := (List.nodup_append.mp hnd2).2.2
  have htlen : (ps.take k).length = k := by
    rw [List.length_take]
    omega
  have hdlen : (ps.drop k).length = 81 - k := by
    rw [List.length_drop]
    omega
  have hfilt1 : (cellsList.filter fun rc => carve g (ps.take k) rc.1 rc.2 == 0) =
      cellsList.filter fun rc => decide (rc ∈ ps.take k) := by
    apply List.filter_congr
    intro x hx
    obtain ⟨i, j⟩ := x
    obtain ⟨hx1, hx2⟩ := mem_cellsList.mp hx
    rw [carve_apply]
    by_cases hm : (i, j) ∈ ps.take k
    · simp [hm]
    · simp [hm, hfull i hx1 j hx2]
  have hfilt2 : (cellsList.filter fun rc => carve g (ps.take k) rc.1 rc.2 != 0) =
      cellsList.filter fun rc => !(decide (rc ∈ ps.take k)) := by
    apply List.filter_congr
    intro x hx
    obtain ⟨i, j⟩ := x
    obtain ⟨hx1, hx2⟩ := mem_cellsList.mp hx
    rw [carve_apply]
    by_cases hm : (i, j) ∈ ps.take k
    · simp [hm]
    · simp [hm, hfull i hx1 j hx2]
  have hself : (ps.take k).filter (fun rc => decide (rc ∈ ps.take k)) = ps.take k :=
    List.filter_eq_self.mpr (fun a ha => by simpa using ha)
  have hnil : (ps.drop k).filter (fun rc => decide (rc ∈ ps.take k)) = [] :=
    List.filter_eq_nil_iff.mpr (fun a ha => by simpa using fun hat => hdisj hat ha)
  have hpsfilter : ps.filter (fun rc => decide (rc ∈ ps.take k)) = ps.take k := by
    have h0 : (ps.take k ++ ps.drop k).filter (fun rc => decide (rc ∈ ps.take k)) =
        ps.take k := by
      rw [List.filter_append, hself, hnil, List.append_nil]
    rw [List.take_append_drop] at h0
    exact h0
  have hself2 : (ps.drop k).filter (fun rc => !(decide (rc ∈ ps.take k))) = ps.drop k :=
    List.filter_eq_self.mpr (fun a ha => by simpa using fun hat => hdisj hat ha)
  have hnil2 : (ps.take k).filter (fun rc => !(decide (rc ∈ ps.take k))) = [] :=
    List.filter_eq_nil_iff.mpr (fun a ha => by simpa using ha)
  have hpsfilter2 : ps.filter (fun rc => !(decide (rc ∈ ps.take k))) = ps.drop k := by
    have h0 : (ps.take k ++ ps.drop k).filter (fun rc => !(decide (rc ∈ ps.take k))) =
        ps.drop k := by
      rw [List.filter_append, hnil2, hself2, List.nil_append]
    rw [List.take_append_drop] at h0
    exact h0
  constructor
  · rw [zeroCount, hfilt1, ← (hps.filter _).length_eq, hpsfilter, htlen]
  · rw [filledCount, hfilt2, ← (hps.filter _).length_eq, hpsfilter2, hdlen]

/-- C4: right after `new_game`, the original (and play) grid has exactly
`cells_to_remove d` empty cells and `81 - cells_to_remove d` filled cells — in
particular 40 and 41 for Easy.  The hypotheses record the distribution of the shuffled
position list and the success of the backtracking solver. -/
theorem carve_C4 (s : State) (d : SudokuDifficulty) (p1 p2 p3 : List Nat)
    (ps : List (Nat × Nat)) (hps : ps.Perm cellsList)
    (hsolve : (solve 81 (seeded p1 p2 p3)).isSome = true) :
    zeroCount (new_game s d p1 p2 p3 ps).2.original_board = cells_to_remove d ∧
    zeroCount (new_game s d p1 p2 p3 ps).2.board = cells_to_remove d ∧
    filledCount (new_game s d p1 p2 p3 ps).2.original_board = 81 - cells_to_remove d ∧
    (d = SudokuDifficulty.EASY →
      zeroCount (new_game s d p1 p2 p3 ps).2.original_board = 40 ∧
      filledCount (new_game s d p1 p2 p3 ps).2.original_board = 41) := by
  obtain ⟨gsol, hg⟩ := Option.isSome_iff_exists.mp hsolve
  have hfull : FullGrid (generate_solution p1 p2 p3) := by
    rw [generate_solution, hg]
    exact solve_some_full 81 _ _ hg
  have hk : cells_to_remove d ≤ 81 := by cases d <;> decide
  have hcount := carve_zeroCount (generate_solution p1 p2 p3) ps hps (cells_to_remove d)
    hk hfull
  refine ⟨hcount.1, hcount.1, hcount.2, fun hd => ?_⟩
  subst hd
  refine ⟨hcount.1, ?_⟩
  have h41 : (81 : Nat) - cells_to_remove SudokuDifficulty.EASY = 41 := by decide
  rw [← h41]
  exact hcount.2

lemma solve_cp_isSome : (solve 81 (seeded cp1 cp2 cp3)).isSome = true := by decide

/-- Witness for C4 with concrete shuffles: carving an Easy puzzle leaves 40 empty and
41 filled cells. -/
theorem carve_C4_witness :
    zeroCount (new_game initState SudokuDifficulty.EASY cp1 cp2 cp3
      cellsList).2.original_board = 40 ∧
    filledCount (new_game initState SudokuDifficulty.EASY cp1 cp2 cp3
      cellsList).2.original_board = 41 :=
  (carve_C4 initState SudokuDifficulty.EASY cp1 cp2 cp3 cellsList (List.Perm.refl _)
    solve_cp_isSome).2.2.2 rfl

lemma is_valid_iff (g : Grid) (row col num : Nat) :
    is_valid g row col num = true ↔
      (∀ c, c < 9 → g row c ≠ num) ∧ (∀ r, r < 9 → g r col ≠ num) ∧
      (∀ i, i < 3 → ∀ j, j < 3 → g (3 * (row / 3) + i) (3 * (col / 3) + j) ≠ num) := by
  simp [is_valid, List.all_eq_true, List.mem_range]
  tauto

lemma setCell_consistent {g : Grid} {row col num : Nat}
    (hg : Consistent g) (hrow : row < 9) (hcol : col < 9) (hempty : g row col = 0)
    (hn9 : num ≤ 9) (hv : is_valid g row col num = true) :
    Consistent (setCell g row col num) := by
  obtain ⟨hb, hrows, hcols, hbox⟩ := hg
  obtain ⟨hvr, hvc, hvb⟩ := (is_valid_iff g row col num).mp hv
  refine ⟨?_, ?_, ?_, ?_⟩
  · intro r hr c hc
    by_cases e : r = row ∧ c = col
    · obtain ⟨rfl, rfl⟩ := e
      rw [setCell_self]
      exact hn9
    · rw [setCell_ne _ _ e]
      exact hb r hr c hc
  · intro r hr c1 hc1 c2 hc2 hne hnz
    by_cases e1 : r = row ∧ c1 = col
    · obtain ⟨rfl, rfl⟩ := e1
      rw [setCell_self]
      rw [setCell_ne _ _ (fun h => hne h.2.symm)]
      exact Ne.symm (hvr c2 hc2)
    · rw [setCell_ne _ _ e1]
      rw [setCell_ne _ _ e1] at hnz
      by_cases e2 : r = row ∧ c2 = col
      · obtain ⟨rfl, rfl⟩ := e2
        rw [setCell_self]
        exact hvr c1 hc1
      · rw [setCell_ne _ _ e2]
        exact hrows r hr c1 hc1 c2 hc2 hne hnz
  · intro c hc r1 hr1 r2 hr2 hne hnz
    by_cases e1 : r1 = row ∧ c = col
    · obtain ⟨rfl, rfl⟩ := e1
      rw [setCell_self]
      rw [setCell_ne _ _ (fun h => hne h.1.symm)]
      exact Ne.symm (hvc r2 hr2)
    · rw [setCell_ne _ _ e1]
      rw [setCell_ne _ _ e1] at hnz
      by_cases e2 : r2 = row ∧ c = col
      · obtain ⟨rfl, rfl⟩ := e2
        rw [setCell_self]
        exact hvc r1 hr1
      · rw [setCell_ne _ _ e2]
        exact hcols c hc r1 hr1 r2 hr2 hne hnz
  · intro r1 hr1 c1 hc1 r2 hr2 c2 hc2 hbr hbc hne hnz
    by_cases e1 : r1 = row ∧ c1 = col
    · obtain ⟨rfl, rfl⟩ := e1
      rw [setCell_self]
      by_cases e2 : r2 = r1 ∧ c2 = c1
      · exact absurd ⟨e2.1.symm, e2.2.symm⟩ hne
      · rw [setCell_ne _ _ e2]
        have e3 : 3 * (r1 / 3) + r2 % 3 = r2 := by omega
        have e4 : 3 * (c1 / 3) + c2 % 3 = c2 := by omega
        have h5 := hvb (r2 % 3) (by omega) (c2 % 3) (by omega)
        rw [e3, e4] at h5
        exact Ne.symm h5
    · rw [setCell_ne _ _ e1]
      rw [setCell_ne _ _ e1] at hnz
      by_cases e2 : r2 = row ∧ c2 = col
      · obtain ⟨rfl, rfl⟩ := e2
        rw [setCell_self]
        have e3 : 3 * (r2 / 3) + r1 % 3 = r1 := by omega
        have e4 : 3 * (c2 / 3) + c1 % 3 = c1 := by omega
        have h5 := hvb (r1 % 3) (by omega) (c1 % 3) (by omega)
        rw [e3, e4] at h5
        exact h5
      · rw [setCell_ne _ _ e2]
        exact hbox r1 hr1 c1 hc1 r2 hr2 c2 hc2 hbr hbc hne hnz

lemma solve_sound : ∀ (fuel : Nat) (g0 g : Grid), Consistent g0 → solve fuel g0 = some g →
    Consistent g := by
  intro fuel
  induction fuel with
  | zero =>
    intro g0 g _ h
    exact absurd h (by simp [solve])
  | succ fuel ih =>
    intro g0 g hcons h
    rw [solve] at h
    cases hf : find_empty g0 with
    | none =>
      rw [hf] at h
      rw [← Option.some.inj h]
      exact hcons
    | some rc =>
      obtain ⟨row, col⟩ := rc
      rw [hf] at h
      obtain ⟨n, hn, hv, hrec⟩ := tryNums_some h
      have hmem := mem_cellsList.mp (List.mem_of_find?_eq_some hf)
      have hempty : g0 row col = 0 := by
        have := List.find?_some hf
        simpa using this
      have hrange : n ≤ 9 := by
        have hmem2 : n ∈ List.range' 1 9 := hn
        have := List.mem_range'_1.mp hmem2
        omega
      exact ih _ g (setCell_consistent hcons hmem.1 hmem.2 hempty hrange hv) hrec

/-! ### Consistency of the diagonal seeding -/

lemma seeded_apply (p1 p2 p3 : List Nat) (i j : Nat) :
    seeded p1 p2 p3 i j =
      if 6 ≤ i ∧ i < 9 ∧ 6 ≤ j ∧ j < 9 then p3.getD (3 * (i - 6) + (j - 6)) 0
      else if 3 ≤ i ∧ i < 6 ∧ 3 ≤ j ∧ j < 6 then p2.getD (3 * (i - 3) + (j - 3)) 0
      else if i < 3 ∧ j < 3 then p1.getD (3 * i + j) 0
      else 0 := by
  show fill_box (fill_box (fill_box zeroGrid 0 0 p1) 3 3 p2) 6 6 p3 i j = _
  simp only [fill_box, zeroGrid, Nat.sub_zero, Nat.zero_le, true_and, Nat.zero_add]

lemma getD_nodup_ne {p : List Nat} (hnd : p.Nodup) (hlen : p.length = 9) {i j : Nat}
    (hi : i < 9) (hj : j < 9) (hij : i ≠ j) : p.getD i 0 ≠ p.getD j 0 := by
  rw [List.getD_eq_getElem _ _ (by omega), List.getD_eq_getElem _ _ (by omega)]
  intro he
  exact hij ((List.Nodup.getElem_inj_iff hnd).mp he)

lemma getD_le9 {p : List Nat} (hmem : ∀ x ∈ p, 1 ≤ x ∧ x ≤ 9) (hlen : p.length = 9)
    {i : Nat} (hi : i < 9) : p.getD i 0 ≤ 9 := by
  rw [List.getD_eq_getElem _ _ (by omega)]
  exact (hmem _ (List.getElem_mem _)).2

lemma perm_digits_facts {p : List Nat} (hp : p.Perm (List.range' 1 9)) :
    p.length = 9 ∧ p.Nodup ∧ ∀ x ∈ p, 1 ≤ x ∧ x ≤ 9 := by
  refine ⟨hp.length_eq.trans (by simp), hp.nodup_iff.mpr (by decide), ?_⟩
  intro x hx
  have := List.mem_range'_1.mp (hp.mem_iff.mp hx)
  omega

lemma seeded_consistent (p1 p2 p3 : List Nat)
    (h1 : p1.Perm (List.range' 1 9)) (h2 : p2.Perm (List.range' 1 9))
    (h3 : p3.Perm (List.range' 1 9)) :
    Consistent (seeded p1 p2 p3) := by
  obtain ⟨hlen1, hnd1, hm1⟩ := perm_digits_facts h1
  obtain ⟨hlen2, hnd2, hm2⟩ := perm_digits_facts h2
  obtain ⟨hlen3, hnd3, hm3⟩ := perm_digits_facts h3
  refine ⟨?_, ?_, ?_, ?_⟩
  · intro r hr c hc
    simp only [seeded_apply]
    split_ifs <;>
      first
      | omega
      | exact getD_le9 hm1 hlen1 (by omega)
      | exact getD_le9 hm2 hlen2 (by omega)
      | exact getD_le9 hm3 hlen3 (by omega)
  · intro r hr c1 hc1 c2 hc2 hne hnz
    simp only [seeded_apply] at hnz ⊢
    split_ifs at hnz ⊢ <;>
      first
      | exact absurd rfl hnz
      | exact hnz
      | (exfalso; omega)
      | exact getD_nodup_ne hnd1 hlen1 (by omega) (by omega) (by omega)
      | exact getD_nodup_ne hnd2 hlen2 (by omega) (by omega) (by omega)
      | exact getD_nodup_ne hnd3 hlen3 (by omega) (by omega) (by omega)
  · intro c hc r1 hr1 r2 hr2 hne hnz
    simp only [seeded_apply] at hnz ⊢
    split_ifs at hnz ⊢ <;>
      first
      | exact absurd rfl hnz
      | exact hnz
      | (exfalso; omega)
      | exact getD_nodup_ne hnd1 hlen1 (by omega) (by omega) (by omega)
      | exact getD_nodup_ne hnd2 hlen2 (by omega) (by omega) (by omega)
      | exact getD_nodup_ne hnd3 hlen3 (by omega) (by omega) (by omega)
  · intro r1 hr1 c1 hc1 r2 hr2 c2 hc2 hbr hbc hne hnz
    simp only [seeded_apply] at hnz ⊢
    split_ifs at hnz ⊢ <;>
      first
      | exact absurd rfl hnz
      | exact hnz
      | (exfalso; omega)
      | exact getD_nodup_ne hnd1 hlen1 (by omega) (by omega) (by omega)
      | exact getD_nodup_ne hnd2 hlen2 (by omega) (by omega) (by omega)
      | exact getD_nodup_ne hnd3 hlen3 (by omega) (by omega) (by omega)

lemma exists_preimage_of_inj (f : Nat → Nat) (hb : ∀ i, i < 9 → 1 ≤ f i ∧ f i ≤ 9)
    (hinj : ∀ i, i < 9 → ∀ j, j < 9 → f i = f j → i = j) :
    ∀ d, 1 ≤ d → d ≤ 9 → ∃ i, i < 9 ∧ f i = d := by
  intro d hd1 hd9
  have hcard : (Finset.Icc 1 9).card ≤ (Finset.range 9).card := by simp
  have hsurj := Finset.surj_on_of_inj_on_of_card_le
    ((fun a _ => f a) : ∀ a ∈ Finset.range 9, Nat)
    (fun a ha => Finset.mem_Icc.mpr (hb a (Finset.mem_range.mp ha)))
    (fun a1 a2 ha1 ha2 he =>
      hinj a1 (Finset.mem_range.mp ha1) a2 (Finset.mem_range.mp ha2) he)
    hcard
  obtain ⟨a, ha, he⟩ := hsurj d (Finset.mem_Icc.mpr ⟨hd1, hd9⟩)
  exact ⟨a, Finset.mem_range.mp ha, he.symm⟩

lemma full_consistent_valid {g : Grid} (hfull : FullGrid g) (hcons : Consistent g) :
    ValidSolution g := by
  obtain ⟨hb, hrows, hcols, hbox⟩ := hcons
  refine ⟨?_, ?_, ?_⟩
  · intro r hr d hd1 hd9
    have hinj : ∀ i, i < 9 → ∀ j, j < 9 → g r i = g r j → i = j := by
      intro i hi j hj he
      by_contra hne
      exact absurd he (hrows r hr i hi j hj hne (hfull r hr i hi))
    have hlow : ∀ i, i < 9 → 1 ≤ g r i ∧ g r i ≤ 9 := by
      intro i hi
      have h0 := hfull r hr i hi
      have h9 := hb r hr i hi
      omega
    obtain ⟨c, hc, he⟩ := exists_preimage_of_inj (fun c => g r c) hlow hinj d hd1 hd9
    exact ⟨c, hc, he, fun c2 hc2 he2 => hinj c2 hc2 c hc (he2.trans he.symm)⟩
  · intro c hc d hd1 hd9
    have hinj : ∀ i, i < 9 → ∀ j, j < 9 → g i c = g j c → i = j := by
      intro i hi j hj he
      by_contra hne
      exact absurd he (hcols c hc i hi j hj hne (hfull i hi c hc))
    have hlow : ∀ i, i < 9 → 1 ≤ g i c ∧ g i c ≤ 9 := by
      intro i hi
      have h0 := hfull i hi c hc
      have h9 := hb i hi c hc
      omega
    obtain ⟨r, hr, he⟩ := exists_preimage_of_inj (fun r => g r c) hlow hinj d hd1 hd9
    exact ⟨r, hr, he, fun r2 hr2 he2 => hinj r2 hr2 r hr (he2.trans he.symm)⟩
  · intro b hbnd d hd1 hd9
    have hcell : ∀ i, i < 9 → (boxCell b i).1 < 9 ∧ (boxCell b i).2 < 9 := by
      intro i hi
      show 3 * (b / 3) + i / 3 < 9 ∧ 3 * (b % 3) + i % 3 < 9
      omega
    have hsame : ∀ i, i < 9 → ∀ j, j < 9 →
        (boxCell b i).1 / 3 = (boxCell b j).1 / 3 ∧
        (boxCell b i).2 / 3 = (boxCell b j).2 / 3 := by
      intro i hi j hj
      constructor
      · show (3 * (b / 3) + i / 3) / 3 = (3 * (b / 3) + j / 3) / 3
        omega
      · show (3 * (b % 3) + i % 3) / 3 = (3 * (b % 3) + j % 3) / 3
        omega
    have hinj : ∀ i, i < 9 → ∀ j, j < 9 →
        g (boxCell b i).1 (boxCell b i).2 = g (boxCell b j).1 (boxCell b j).2 →
        i = j := by
      intro i hi j hj he
      by_contra hne
      have hnecell : ¬((boxCell b i).1 = (boxCell b j).1 ∧
          (boxCell b i).2 = (boxCell b j).2) := by
        show ¬(3 * (b / 3) + i / 3 = 3 * (b / 3) + j / 3 ∧
          3 * (b % 3) + i % 3 = 3 * (b % 3) + j % 3)
        omega
      exact absurd he (hbox (boxCell b i).1 (hcell i hi).1 (boxCell b i).2 (hcell i hi).2
        (boxCell b j).1 (hcell j hj).1 (boxCell b j).2 (hcell j hj).2
        (hsame i hi j hj).1 (hsame i hi j hj).2 hnecell
        (hfull (boxCell b i).1 (hcell i hi).1 (boxCell b i).2 (hcell i hi).2))
    have hlow : ∀ i, i < 9 →
        1 ≤ g (boxCell b i).1 (boxCell b i).2 ∧ g (boxCell b i).1 (boxCell b i).2 ≤ 9 := by
      intro i hi
      have h0 := hfull (boxCell b i).1 (hcell i hi).1 (boxCell b i).2 (hcell i hi).2
      have h9 := hb (boxCell b i).1 (hcell i hi).1 (boxCell b i).2 (hcell i hi).2
      omega
    obtain ⟨i, hi, he⟩ := exists_preimage_of_inj
      (fun i => g (boxCell b i).1 (boxCell b i).2) hlow hinj d hd1 hd9
    exact ⟨i, hi, he, fun i2 hi2 he2 => hinj i2 hi2 i hi (he2.trans he.symm)⟩

/-- C2: whenever the backtracking completion succeeds, the grid stored by
`_generate_solution` from any shuffles of the three diagonal boxes satisfies the full
Sudoku constraint: every row, column and 3x3 box contains each digit 1-9 exactly
once. -/
theorem generate_solution_C2 (p1 p2 p3 : List Nat)
    (h1 : p1.Perm (List.range' 1 9)) (h2 : p2.Perm (List.range' 1 9))
    (h3 : p3.Perm (List.range' 1 9))
    (hsolve : (solve 81 (seeded p1 p2 p3)).isSome = true) :
    ValidSolution (generate_solution p1 p2 p3) := by
  obtain ⟨gsol, hg⟩ := Option.isSome_iff_exists.mp hsolve
  have hcons := solve_sound 81 _ _ (seeded_consistent p1 p2 p3 h1 h2 h3) hg
  have hfull := solve_some_full 81 _ _ hg
  have hgen : generate_solution p1 p2 p3 = gsol := by
    rw [generate_solution, hg]
  rw [hgen]
  exact full_consistent_valid hfull hcons

/-- Witness for C2 at the concrete shuffles. -/
theorem generate_solution_C2_witness :
    ValidSolution (generate_solution cp1 cp2 cp3) :=
  generate_solution_C2 cp1 cp2 cp3 (by decide) (by decide) (by decide) solve_cp_isSome

end ZSY
